/-
Verification of the plant-apps report builder (`extract_plant_apps.py`).

The script loads a JSON document with two arrays (`all_plant_apps`,
`top_10_results`), builds a membership set of top-10 identifiers (as
strings), annotates every app record with membership and match metadata,
sorts the annotated rows by (membership, descending rating), writes them
to a CSV file and prints a summary.

The embedding below models Python dynamic values as needed by the script:
identifiers and ratings are ints/floats/strings (`PyVal`, with floats
modelled exactly as rationals), records are structures with `Option`
fields so that a missing dictionary key is representable, and every
fallible step returns `Except String`.  Python's `list.sort` is stable,
so any stable sort with the same key order has the same output; we use
`List.insertionSort` on the decorated (key, row) list, which Mathlib
proves stable.
-/
import Mathlib

set_option linter.unusedVariables false

/-- A Python scalar as it occurs in the input JSON: a number (ints and
floats modelled exactly as rationals) or a string. -/
inductive PyVal where
  | num (q : ℚ)
  | str (s : String)
deriving DecidableEq, Repr

/-- `str(v)`: string coercion used for identifier comparison.  For the
values this script compares (`id` fields), numbers print as themselves;
only equality of coercions matters for the claims, so the exact digit
string of a rational stands in for Python's repr. -/
def PyVal.toStr : PyVal → String
  | .num q => toString q
  | .str s => s

/-- Python truthiness of a scalar: `0`/`0.0` and `""` are falsy. -/
def PyVal.truthy : PyVal → Bool
  | .num q => decide (q ≠ 0)
  | .str s => decide (s ≠ "")

/-- Digits-to-Nat accumulator for the decimal parser. -/
def natFromDigits : List Char → Nat → Nat
  | [], acc => acc
  | c :: cs, acc => natFromDigits cs (acc * 10 + (c.toNat - 48))

/-- Parse an unsigned decimal literal (`"12"`, `"12.5"`, `".5"`, `"12."`)
to an exact rational, as Python's `float()` does on such strings. -/
def parseUnsigned (cs : List Char) : Option ℚ :=
  let intPart := cs.takeWhile Char.isDigit
  let rest := cs.dropWhile Char.isDigit
  match rest with
  | [] => if intPart.isEmpty then none else some (natFromDigits intPart 0)
  | '.' :: frac =>
    if frac.all Char.isDigit && !(intPart.isEmpty && frac.isEmpty) then
      some ((natFromDigits intPart 0 : ℚ) +
        (natFromDigits frac 0 : ℚ) / ((10 : ℚ) ^ frac.length))
    else none
  | _ => none

/-- `float(s)` on a decimal string with optional sign; `none` models a
`ValueError`. -/
def parseFloatQ (s : String) : Option ℚ :=
  match s.toList with
  | '-' :: rest => (parseUnsigned rest).map Neg.neg
  | '+' :: rest => parseUnsigned rest
  | cs => parseUnsigned cs

/-- `float(v)`: numbers convert exactly, strings are parsed; `none`
models a `ValueError`/`TypeError`. -/
def PyVal.toQ : PyVal → Option ℚ
  | .num q => some q
  | .str s => parseFloatQ s

/-- One element of `all_plant_apps`; `none` fields model missing
dictionary keys. -/
structure RawApp where
  id : Option PyVal
  name : Option String
  category : Option String
  rating : Option PyVal
  one_liner : Option String
  description : Option String
deriving DecidableEq, Repr

/-- One element of `top_10_results`; `none` fields model missing
dictionary keys. -/
structure RawTop where
  id : Option PyVal
  matched_keywords : Option (List String)
  relevance_score : Option PyVal
  match_reason : Option String
deriving DecidableEq, Repr

/-- One output CSV data row (the dict appended to `csv_data`). -/
structure Row where
  app_id : PyVal
  app_name : String
  category : String
  rating : PyVal
  one_liner : String
  in_top_10 : String
  matched_keywords : String
  relevance_score : PyVal
  match_reason : String
  description_preview : String
deriving DecidableEq, Repr

instance {e a : Type} [DecidableEq e] [DecidableEq a] :
    DecidableEq (Except e a) := fun x y =>
  match x, y with
  | .error e1, .error e2 =>
    if h : e1 = e2 then .isTrue (by rw [h]) else
      .isFalse (fun hc => h (by cases hc; rfl))
  | .ok a1, .ok a2 =>
    if h : a1 = a2 then .isTrue (by rw [h]) else
      .isFalse (fun hc => h (by cases hc; rfl))
  | .error _, .ok _ => .isFalse (fun hc => by cases hc)
  | .ok _, .error _ => .isFalse (fun hc => by cases hc)

/-- `top_10_ids = set(str(app['id']) for app in top_10_results)`:
the identifier strings of the top-10 entries, failing with a `KeyError`
on the first entry without an `id`.  Membership in the Python set and in
this list coincide. -/
def buildTopIds : List RawTop → Except String (List String)
  | [] => .ok []
  | t :: ts =>
    match t.id with
    | none => .error "KeyError: id"
    | some v =>
      match buildTopIds ts with
      | .error e => .error e
      | .ok ids => .ok (v.toStr :: ids)

/-- The linear scan of lines 33-38: first entry of `top_10_results`
whose `str(id)` equals `s` (`break` on the first hit), failing if an
entry before the hit has no `id`. -/
def findTop : List RawTop → String → Except String (Option RawTop)
  | [], _ => .ok none
  | t :: ts, s =>
    match t.id with
    | none => .error "KeyError: id"
    | some v => if v.toStr = s then .ok (some t) else findTop ts s

/-- Line 50: `app['description'][:200] + '...' if len(...) > 200 else
app['description']`.  Python slices by code point, hence `toList.take`. -/
def preview (s : String) : String :=
  if s.length > 200 then String.mk (s.toList.take 200) ++ "..." else s

/-- Lines 27 and 35: the joined keyword string — the initial `""` when
the scan found nothing, otherwise `", ".join(top_app.get('matched_keywords', []))`. -/
def mkKeywords : Option RawTop → String
  | some t => String.intercalate ", " (t.matched_keywords.getD [])
  | none => ""

/-- Lines 28 and 36: the relevance score — the initial `""` when the
scan found nothing, otherwise `top_app.get('relevance_score', '')`. -/
def mkScore : Option RawTop → PyVal
  | some t => t.relevance_score.getD (.str "")
  | none => .str ""

/-- Lines 29 and 37: the match reason — the initial `""` when the scan
found nothing, otherwise `top_app.get('match_reason', '')`. -/
def mkReason : Option RawTop → String
  | some t => t.match_reason.getD ""
  | none => ""

/-- The loop body of lines 23-51: build the annotated row for one app
record, failing with a `KeyError` when a required field is missing.
The three match fields use `dict.get` with defaults (lines 35-37), so a
missing `matched_keywords`/`relevance_score`/`match_reason` is defaulted,
not fatal. -/
def annotate (tops : List RawTop) (topIds : List String) (app : RawApp) :
    Except String Row :=
  match app.id with
  | none => .error "KeyError: id"
  | some aid =>
    let inTop : Bool := decide (aid.toStr ∈ topIds)
    match (if inTop then findTop tops aid.toStr else .ok none) with
    | .error e => .error e
    | .ok found =>
      let mk : String := mkKeywords found
      let rs : PyVal := mkScore found
      let mr : String := mkReason found
      match app.name with
      | none => .error "KeyError: name"
      | some nm =>
      match app.category with
      | none => .error "KeyError: category"
      | some cat =>
      match app.rating with
      | none => .error "KeyError: rating"
      | some rat =>
      match app.one_liner with
      | none => .error "KeyError: one_liner"
      | some ol =>
      match app.description with
      | none => .error "KeyError: description"
      | some desc =>
        .ok { app_id := aid, app_name := nm, category := cat, rating := rat,
              one_liner := ol,
              in_top_10 := if inTop then "YES" else "NO",
              matched_keywords := mk, relevance_score := rs,
              match_reason := mr,
              description_preview := preview desc }

/-- The whole loop of lines 23-51 over `all_plant_apps`, in order. -/
def annotateAll (tops : List RawTop) (topIds : List String) :
    List RawApp → Except String (List Row)
  | [] => .ok []
  | a :: as =>
    match annotate tops topIds a with
    | .error e => .error e
    | .ok r =>
      match annotateAll tops topIds as with
      | .error e => .error e
      | .ok rs => .ok (r :: rs)

/-- Line 54's key function: `(x['in_top_10'] == 'NO',
-float(x['rating']) if x['rating'] else 0)`; `none` of `toQ` models a
`ValueError` raised by `float`. -/
def rowKey (r : Row) : Except String (Bool × ℚ) :=
  if r.rating.truthy then
    match r.rating.toQ with
    | none => .error "ValueError: could not convert string to float"
    | some q => .ok (decide (r.in_top_10 = "NO"), -q)
  else .ok (decide (r.in_top_10 = "NO"), 0)

/-- Decorate every row with its sort key (Python computes all keys
before comparing), in list order. -/
def buildKeyed : List Row → Except String (List ((Bool × ℚ) × Row))
  | [] => .ok []
  | r :: rs =>
    match rowKey r with
    | .error e => .error e
    | .ok k =>
      match buildKeyed rs with
      | .error e => .error e
      | .ok ks => .ok ((k, r) :: ks)

/-- Lexicographic `≤` on the sort keys: `False < True` on the membership
bool, then `≤` on the (negated) rating. -/
def keyLe (a b : Bool × ℚ) : Prop :=
  (a.1 = false ∧ b.1 = true) ∨ (a.1 = b.1 ∧ a.2 ≤ b.2)

instance : DecidableRel keyLe := fun a b => by
  unfold keyLe; infer_instance

/-- The sort order on decorated rows: compare keys only. -/
def keyedLe (a b : (Bool × ℚ) × Row) : Prop := keyLe a.1 b.1

instance : DecidableRel keyedLe := fun a b => by
  unfold keyedLe; infer_instance

instance : IsTotal ((Bool × ℚ) × Row) keyedLe where
  total a b := by
    unfold keyedLe keyLe
    rcases Bool.eq_false_or_eq_true a.1.1 with h1 | h1 <;>
      rcases Bool.eq_false_or_eq_true b.1.1 with h2 | h2 <;>
      simp [h1, h2] <;> exact le_total a.1.2 b.1.2

instance : IsTrans ((Bool × ℚ) × Row) keyedLe where
  trans a b c hab hbc := by
    unfold keyedLe keyLe at *
    rcases hab with ⟨ha, hb⟩ | ⟨hab, hq⟩ <;>
      rcases hbc with ⟨hb2, hc⟩ | ⟨hbc, hq2⟩
    · exact Or.inl ⟨ha, hc⟩
    · exact Or.inl ⟨ha, hbc ▸ hb⟩
    · exact Or.inl ⟨hab.trans hb2, hc⟩
    · exact Or.inr ⟨hab.trans hbc, hq.trans hq2⟩

/-- Line 54: `csv_data.sort(key=...)`.  CPython's sort is stable, and a
stable sort's output is determined by the key order and stability, so
the (stable) `List.insertionSort` on the decorated list is an exact
model. -/
def sortRows (rows : List Row) : Except String (List Row) :=
  match buildKeyed rows with
  | .error e => .error e
  | .ok keyed => .ok ((keyed.insertionSort keyedLe).map Prod.snd)

/-- The parsed JSON document; `none` keys model absent dictionary keys
(`data['all_plant_apps']` / `data['top_10_results']` raise `KeyError`). -/
structure Doc where
  all_plant_apps : Option (List RawApp)
  top_10_results : Option (List RawTop)
deriving DecidableEq, Repr

/-- Outcome of opening and parsing the input file (lines 7-8):
the file may be missing, the JSON malformed, or a document parsed. -/
inductive LoadResult where
  | notFound
  | badJson
  | parsed (doc : Doc)
deriving DecidableEq, Repr

/-- Observable side effects of the script, in program order. -/
inductive Effect where
  | printLoadCounts (totalApps topResults : Nat)
  | writeFile (rows : List Row)
  | printCreated
  | printTopCount (n : Nat)
  | printNotTopCount (n : Nat)
  | printListing (rows : List Row)
deriving DecidableEq, Repr

/-- Whether an effect writes the output file. -/
def Effect.isWrite : Effect → Bool
  | .writeFile _ => true
  | _ => false

/-- The whole script: the effect trace it produces and the error (if
any) it terminates with.  Mirrors the source line by line: load
(lines 7-12), count prints (14-15), id set (18), annotation loop
(23-51), sort (54), CSV write (57-63), summary prints (65-76). -/
def run (ld : LoadResult) : List Effect × Option String :=
  match ld with
  | .notFound => ([], some "FileNotFoundError")
  | .badJson => ([], some "json.JSONDecodeError")
  | .parsed doc =>
    match doc.all_plant_apps with
    | none => ([], some "KeyError: all_plant_apps")
    | some apps =>
    match doc.top_10_results with
    | none => ([], some "KeyError: top_10_results")
    | some tops =>
      match buildTopIds tops with
      | .error e => ([Effect.printLoadCounts apps.length tops.length], some e)
      | .ok topIds =>
      match annotateAll tops topIds apps with
      | .error e => ([Effect.printLoadCounts apps.length tops.length], some e)
      | .ok rows =>
      match sortRows rows with
      | .error e => ([Effect.printLoadCounts apps.length tops.length], some e)
      | .ok sorted =>
        ([Effect.printLoadCounts apps.length tops.length,
          Effect.writeFile sorted,
          Effect.printCreated,
          Effect.printTopCount
            (sorted.countP (fun r => decide (r.in_top_10 = "YES"))),
          Effect.printNotTopCount
            (sorted.countP (fun r => decide (r.in_top_10 = "NO"))),
          Effect.printListing
            ((sorted.filter (fun r => decide (r.in_top_10 = "YES"))).take 10)],
         none)

/-- Whether loading fails before any processing: missing input file,
malformed JSON, or a missing top-level key. -/
def loadFails : LoadResult → Bool
  | .notFound => true
  | .badJson => true
  | .parsed doc => doc.all_plant_apps.isNone || doc.top_10_results.isNone

/-- The effective rating used by the sort, as the spec describes it:
the rating parsed as a float, with a falsy rating treated as `0`
(`none` when `float()` would raise). -/
def effRating (r : Row) : Option ℚ :=
  if r.rating.truthy then r.rating.toQ else some 0

/-- The rows carried by the first file-write effect of a trace, if any. -/
def writtenRows : List Effect → Option (List Row)
  | [] => none
  | .writeFile rows :: _ => some rows
  | _ :: fx => writtenRows fx

/-- The predicate of the linear scan, as a boolean on entries:
entry has an `id` whose string coercion equals `s`. -/
def idMatch (s : String) (t : RawTop) : Bool :=
  match t.id with
  | some v => decide (v.toStr = s)
  | none => false

/-- Concrete valid input, following the example in the spec: two app
records, one of which is the single top-10 result. -/
def wApp1 : RawApp :=
  ⟨some (.num 1), some "A", some "plants", some (.num 4), some "liner one",
   some "short desc"⟩

def wApp2 : RawApp :=
  ⟨some (.num 2), some "B", some "plants", some (.num 5), some "liner two",
   some "second desc"⟩

def wTop : RawTop :=
  ⟨some (.num 2), some ["water"], some (.num 1), some "match"⟩

def wDoc : Doc := ⟨some [wApp1, wApp2], some [wTop]⟩

/-- The row the script builds for `wApp1` (not in the top 10). -/
def wRow1 : Row :=
  { app_id := .num 1, app_name := "A", category := "plants",
    rating := .num 4, one_liner := "liner one", in_top_10 := "NO",
    matched_keywords := "", relevance_score := .str "", match_reason := "",
    description_preview := "short desc" }

/-- The row the script builds for `wApp2` (in the top 10). -/
def wRow2 : Row :=
  { app_id := .num 2, app_name := "B", category := "plants",
    rating := .num 5, one_liner := "liner two", in_top_10 := "YES",
    matched_keywords := "water", relevance_score := .num 1,
    match_reason := "match", description_preview := "second desc" }

/-- The effect trace of the run on `wDoc`. -/
def wFx : List Effect :=
  [Effect.printLoadCounts 2 1, Effect.writeFile [wRow2, wRow1],
   Effect.printCreated, Effect.printTopCount 1, Effect.printNotTopCount 1,
   Effect.printListing [wRow2]]

/-- A record with a truthy negative rating (sort key `-(-1) = 1`). -/
def negApp : RawApp :=
  ⟨some (.num 1), some "A", some "c", some (.num (-1)), some "o1",
   some "d1"⟩

/-- A record with a falsy rating `0` (sort key `0`). -/
def zeroApp : RawApp :=
  ⟨some (.num 2), some "B", some "c", some (.num 0), some "o2", some "d2"⟩

def negDoc : Doc := ⟨some [negApp, zeroApp], some []⟩

def negRow : Row :=
  { app_id := .num 1, app_name := "A", category := "c",
    rating := .num (-1), one_liner := "o1", in_top_10 := "NO",
    matched_keywords := "", relevance_score := .str "", match_reason := "",
    description_preview := "d1" }

def zeroRow : Row :=
  { app_id := .num 2, app_name := "B", category := "c",
    rating := .num 0, one_liner := "o2", in_top_10 := "NO",
    matched_keywords := "", relevance_score := .str "", match_reason := "",
    description_preview := "d2" }

/-- An app record with its `id` field missing. -/
def missApp : RawApp :=
  ⟨none, some "A", some "c", some (.num 4), some "o", some "d"⟩

def docMissApp : Doc := ⟨some [missApp], some []⟩

/-- A top-10 entry with its `id` field missing. -/
def missIdTop : RawTop := ⟨none, none, none, none⟩

def docMissIdTop : Doc := ⟨some [], some [missIdTop]⟩

/-- A top-10 entry that has an `id` but is missing `matched_keywords`,
`relevance_score` and `match_reason`. -/
def missTop : RawTop := ⟨some (.num 1), none, none, none⟩

def app6 : RawApp :=
  ⟨some (.num 1), some "A", some "c", some (.num 4), some "o", some "d"⟩

/-- The row built for `app6` against `missTop`: the three match fields
receive the `dict.get` defaults. -/
def row6 : Row :=
  { app_id := .num 1, app_name := "A", category := "c", rating := .num 4,
    one_liner := "o", in_top_10 := "YES", matched_keywords := "",
    relevance_score := .str "", match_reason := "",
    description_preview := "d" }

def docMissTop : Doc := ⟨some [app6], some [missTop]⟩

/-- Two records with equal ratings and distinct names, for observing
the tie-break of the sort. -/
def eqApp1 : RawApp :=
  ⟨some (.num 1), some "A", some "c", some (.num 3), some "o1", some "d1"⟩

def eqApp2 : RawApp :=
  ⟨some (.num 2), some "B", some "c", some (.num 3), some "o2", some "d2"⟩

def eqRow1 : Row :=
  { app_id := .num 1, app_name := "A", category := "c", rating := .num 3,
    one_liner := "o1", in_top_10 := "NO", matched_keywords := "",
    relevance_score := .str "", match_reason := "",
    description_preview := "d1" }

def eqRow2 : Row :=
  { app_id := .num 2, app_name := "B", category := "c", rating := .num 3,
    one_liner := "o2", in_top_10 := "NO", matched_keywords := "",
    relevance_score := .str "", match_reason := "",
    description_preview := "d2" }

theorem buildTopIds_ok_iff_mem {tops : List RawTop} {ids : List String}
    (h : buildTopIds tops = .ok ids) (s : String) :
    s ∈ ids ↔ ∃ t ∈ tops, ∃ v, t.id = some v ∧ v.toStr = s := by
  induction tops generalizing ids with
  | nil =>
    simp only [buildTopIds] at h
    cases h
    simp
  | cons t ts ih =>
    rw [buildTopIds] at h
    cases ht : t.id with
    | none => rw [ht] at h; cases h
    | some v =>
      rw [ht] at h
      cases hts : buildTopIds ts with
      | error e => rw [hts] at h; cases h
      | ok ids2 =>
        rw [hts] at h
        cases h
        constructor
        · intro hmem
          rcases List.mem_cons.mp hmem with rfl | hmem2
          · exact ⟨t, List.mem_cons_self t ts, v, ht, rfl⟩
          · obtain ⟨t2, ht2, v2, hv2, hvs2⟩ := (ih hts).mp hmem2
            exact ⟨t2, List.mem_cons_of_mem t ht2, v2, hv2, hvs2⟩
        · rintro ⟨t2, ht2, v2, hv2, hvs2⟩
          rcases List.mem_cons.mp ht2 with rfl | hmem2
          · rw [ht] at hv2
            cases hv2
            subst hvs2
            exact List.mem_cons_self _ _
          · exact List.mem_cons_of_mem _ ((ih hts).mpr ⟨t2, hmem2, v2, hv2, hvs2⟩)

theorem buildTopIds_not_ok_of_missing {tops : List RawTop} {t : RawTop}
    (hmem : t ∈ tops) (hid : t.id = none) :
    ∀ ids, buildTopIds tops ≠ .ok ids := by
  induction tops with
  | nil => cases hmem
  | cons t0 ts ih =>
    intro ids h
    rw [buildTopIds] at h
    rcases List.mem_cons.mp hmem with rfl | hmem2
    · rw [hid] at h; cases h
    · cases ht0 : t0.id with
      | none => rw [ht0] at h; cases h
      | some v =>
        rw [ht0] at h
        cases hts : buildTopIds ts with
        | error e => rw [hts] at h; cases h
        | ok ids2 => exact ih hmem2 ids2 hts

theorem buildTopIds_ok_idsSome {tops : List RawTop} {ids : List String}
    (h : buildTopIds tops = .ok ids) :
    ∀ t ∈ tops, t.id.isSome := by
  intro t hmem
  cases ht : t.id with
  | some v => rfl
  | none => exact absurd h (buildTopIds_not_ok_of_missing hmem ht ids)

theorem findTop_eq_findFirst {tops : List RawTop} (s : String)
    (h : ∀ t ∈ tops, t.id.isSome) :
    findTop tops s = .ok (tops.find? (idMatch s)) := by
  induction tops with
  | nil => simp [findTop]
  | cons t ts ih =>
    obtain ⟨v, hv⟩ := Option.isSome_iff_exists.mp (h t (List.mem_cons_self t ts))
    by_cases hvs : v.toStr = s
    · rw [List.find?_cons_of_pos _ (by simp [idMatch, hv, hvs])]
      simp [findTop, hv, hvs]
    · rw [List.find?_cons_of_neg _ (by simp [idMatch, hv, hvs])]
      rw [← ih fun t2 ht2 => h t2 (List.mem_cons_of_mem t ht2)]
      simp [findTop, hv, hvs]

theorem findTop_ok_some_of_mem {tops : List RawTop} {ids : List String}
    {s : String} (h : buildTopIds tops = .ok ids) (hs : s ∈ ids) :
    ∃ t, findTop tops s = .ok (some t) ∧ idMatch s t = true := by
  rw [findTop_eq_findFirst s (buildTopIds_ok_idsSome h)]
  obtain ⟨t2, ht2, v2, hv2, hvs2⟩ := (buildTopIds_ok_iff_mem h s).mp hs
  have hex : ∃ u ∈ tops, idMatch s u = true :=
    ⟨t2, ht2, by simp [idMatch, hv2, hvs2]⟩
  obtain ⟨u, hu⟩ := Option.isSome_iff_exists.mp (List.find?_isSome.mpr hex)
  exact ⟨u, by rw [hu], List.find?_some hu⟩

theorem annotate_ok_inv {tops : List RawTop} {topIds : List String}
    {app : RawApp} {row : Row} (h : annotate tops topIds app = .ok row) :
    ∃ aid nm cat rat ol desc found,
      app.id = some aid ∧ app.name = some nm ∧ app.category = some cat ∧
      app.rating = some rat ∧ app.one_liner = some ol ∧
      app.description = some desc ∧
      (if decide (aid.toStr ∈ topIds) then findTop tops aid.toStr
       else .ok none) = .ok found ∧
      row = { app_id := aid, app_name := nm, category := cat, rating := rat,
              one_liner := ol,
              in_top_10 := if decide (aid.toStr ∈ topIds) then "YES" else "NO",
              matched_keywords := mkKeywords found,
              relevance_score := mkScore found,
              match_reason := mkReason found,
              description_preview := preview desc } := by
  rw [annotate] at h
  cases hid : app.id with
  | none => rw [hid] at h; cases h
  | some aid =>
    simp only [hid] at h
    cases hf : (if decide (aid.toStr ∈ topIds) then findTop tops aid.toStr
        else Except.ok none) with
    | error e => rw [hf] at h; cases h
    | ok found =>
      rw [hf] at h
      cases hnm : app.name with
      | none => rw [hnm] at h; cases h
      | some nm =>
      rw [hnm] at h
      cases hcat : app.category with
      | none => rw [hcat] at h; cases h
      | some cat =>
      rw [hcat] at h
      cases hrat : app.rating with
      | none => rw [hrat] at h; cases h
      | some rat =>
      rw [hrat] at h
      cases hol : app.one_liner with
      | none => rw [hol] at h; cases h
      | some ol =>
      rw [hol] at h
      cases hdesc : app.description with
      | none => rw [hdesc] at h; cases h
      | some desc =>
      rw [hdesc] at h
      cases h
      exact ⟨aid, nm, cat, rat, ol, desc, found, rfl, rfl, rfl, rfl, rfl,
        rfl, hf, rfl⟩

theorem annotateAll_ok_length {tops : List RawTop} {topIds : List String}
    {apps : List RawApp} {rows : List Row}
    (h : annotateAll tops topIds apps = .ok rows) :
    rows.length = apps.length := by
  induction apps generalizing rows with
  | nil => rw [annotateAll] at h; cases h; rfl
  | cons a as ih =>
    rw [annotateAll] at h
    cases ha : annotate tops topIds a with
    | error e => rw [ha] at h; cases h
    | ok r =>
      rw [ha] at h
      cases has : annotateAll tops topIds as with
      | error e => rw [has] at h; cases h
      | ok rs =>
        rw [has] at h
        cases h
        simp [ih has]

theorem annotateAll_ok_mem {tops : List RawTop} {topIds : List String}
    {apps : List RawApp} {rows : List Row}
    (h : annotateAll tops topIds apps = .ok rows)
    {a : RawApp} (ha : a ∈ apps) :
    ∃ r, annotate tops topIds a = .ok r ∧ r ∈ rows := by
  induction apps generalizing rows with
  | nil => cases ha
  | cons a0 as ih =>
    rw [annotateAll] at h
    cases ha0 : annotate tops topIds a0 with
    | error e => rw [ha0] at h; cases h
    | ok r0 =>
      rw [ha0] at h
      cases has : annotateAll tops topIds as with
      | error e => rw [has] at h; cases h
      | ok rs =>
        rw [has] at h
        cases h
        rcases List.mem_cons.mp ha with rfl | ha2
        · exact ⟨r0, ha0, List.mem_cons_self _ _⟩
        · obtain ⟨r, hr, hrm⟩ := ih has ha2
          exact ⟨r, hr, List.mem_cons_of_mem _ hrm⟩

theorem buildKeyed_ok_map_snd {rows : List Row}
    {keyed : List ((Bool × ℚ) × Row)} (h : buildKeyed rows = .ok keyed) :
    keyed.map Prod.snd = rows := by
  induction rows generalizing keyed with
  | nil => rw [buildKeyed] at h; cases h; rfl
  | cons r rs ih =>
    rw [buildKeyed] at h
    cases hk : rowKey r with
    | error e => rw [hk] at h; cases h
    | ok k =>
      rw [hk] at h
      cases hks : buildKeyed rs with
      | error e => rw [hks] at h; cases h
      | ok ks =>
        rw [hks] at h
        cases h
        simp [ih hks]

theorem buildKeyed_ok_key {rows : List Row}
    {keyed : List ((Bool × ℚ) × Row)} (h : buildKeyed rows = .ok keyed) :
    ∀ p ∈ keyed, rowKey p.2 = .ok p.1 := by
  induction rows generalizing keyed with
  | nil => rw [buildKeyed] at h; cases h; intro p hp; cases hp
  | cons r rs ih =>
    rw [buildKeyed] at h
    cases hk : rowKey r with
    | error e => rw [hk] at h; cases h
    | ok k =>
      rw [hk] at h
      cases hks : buildKeyed rs with
      | error e => rw [hks] at h; cases h
      | ok ks =>
        rw [hks] at h
        cases h
        intro p hp
        rcases List.mem_cons.mp hp with rfl | hp2
        · exact hk
        · exact ih hks p hp2

theorem rowKey_ok_iff {r : Row} {k : Bool × ℚ} :
    rowKey r = .ok k ↔
      ∃ q, effRating r = some q ∧ k = (decide (r.in_top_10 = "NO"), -q) := by
  rw [rowKey, effRating]
  by_cases ht : r.rating.truthy
  · rw [if_pos ht, if_pos ht]
    cases hq : r.rating.toQ with
    | none => simp
    | some q =>
      constructor
      · intro h; cases h; exact ⟨q, rfl, rfl⟩
      · rintro ⟨q2, hq2, rfl⟩; cases hq2; rfl
  · rw [if_neg ht, if_neg ht]
    constructor
    · intro h; cases h; exact ⟨0, rfl, by simp⟩
    · rintro ⟨q2, hq2, rfl⟩; cases hq2; simp

theorem sortRows_ok_inv {rows sorted : List Row}
    (h : sortRows rows = .ok sorted) :
    ∃ keyed, buildKeyed rows = .ok keyed ∧
      sorted = (keyed.insertionSort keyedLe).map Prod.snd := by
  rw [sortRows] at h
  cases hk : buildKeyed rows with
  | error e => rw [hk] at h; cases h
  | ok keyed =>
    rw [hk] at h
    cases h
    exact ⟨keyed, rfl, rfl⟩

theorem sortRows_ok_length {rows sorted : List Row}
    (h : sortRows rows = .ok sorted) : sorted.length = rows.length := by
  obtain ⟨keyed, hk, rfl⟩ := sortRows_ok_inv h
  rw [List.length_map, List.length_insertionSort, ← buildKeyed_ok_map_snd hk,
    List.length_map]

theorem pair_get_sublist {α : Type} :
    ∀ (l : List α) (i j : Nat) (hij : i < j) (hj : j < l.length),
      List.Sublist [l.get ⟨i, Nat.lt_trans hij hj⟩, l.get ⟨j, hj⟩] l := by
  intro l
  induction l with
  | nil => intro i j hij hj; cases hj
  | cons x xs ih =>
    intro i j hij hj
    cases i with
    | zero =>
      cases j with
      | zero => cases hij
      | succ j2 =>
        refine List.Sublist.cons₂ x ?_
        exact List.singleton_sublist.mpr (xs.get_mem _ _)
    | succ i2 =>
      cases j with
      | zero => cases hij
      | succ j2 =>
        exact List.Sublist.cons x
          (ih i2 j2 (Nat.lt_of_succ_lt_succ hij) (Nat.lt_of_succ_lt_succ hj))

theorem run_ok_inv {ld : LoadResult} {fx : List Effect}
    (h : run ld = (fx, none)) :
    ∃ doc apps tops topIds rows sorted,
      ld = .parsed doc ∧
      doc.all_plant_apps = some apps ∧
      doc.top_10_results = some tops ∧
      buildTopIds tops = .ok topIds ∧
      annotateAll tops topIds apps = .ok rows ∧
      sortRows rows = .ok sorted ∧
      fx = [Effect.printLoadCounts apps.length tops.length,
            Effect.writeFile sorted,
            Effect.printCreated,
            Effect.printTopCount
              (sorted.countP (fun r => decide (r.in_top_10 = "YES"))),
            Effect.printNotTopCount
              (sorted.countP (fun r => decide (r.in_top_10 = "NO"))),
            Effect.printListing
              ((sorted.filter (fun r => decide (r.in_top_10 = "YES"))).take 10)] := by
  cases ld with
  | notFound => simp [run] at h
  | badJson => simp [run] at h
  | parsed doc =>
    simp only [run] at h
    split at h
    · simp at h
    · split at h
      · simp at h
      · split at h
        · simp at h
        · split at h
          · simp at h
          · split at h
            · simp at h
            · rename_i x1 apps hap x2 tops htp x3 topIds hids x4 rows hrows
                x5 sorted hsort
              have h1 : _ = fx := congrArg Prod.fst h
              exact ⟨doc, apps, tops, topIds, rows, sorted, rfl, hap, htp,
                hids, hrows, hsort, h1.symm⟩

/-- C2: an output row's membership flag is "YES" iff the record's
identifier, coerced to a string, equals the string coercion of the
identifier of some `top_10_results` entry; otherwise it is "NO". -/
theorem membership_flag_iff {tops : List RawTop} {topIds : List String}
    {app : RawApp} {aid : PyVal} {row : Row}
    (hids : buildTopIds tops = .ok topIds)
    (haid : app.id = some aid)
    (hrow : annotate tops topIds app = .ok row) :
    (row.in_top_10 = "YES" ↔
      ∃ t ∈ tops, ∃ v, t.id = some v ∧ v.toStr = aid.toStr) ∧
    (row.in_top_10 = "YES" ∨ row.in_top_10 = "NO") := by
  obtain ⟨aid2, nm, cat, rat, ol, desc, found, hid2, -, -, -, -, -, hf, hroweq⟩ :=
    annotate_ok_inv hrow
  rw [haid] at hid2
  injection hid2 with haid2
  subst haid2
  have hflag : row.in_top_10 =
      (if decide (aid.toStr ∈ topIds) then "YES" else "NO") := by
    rw [hroweq]
  constructor
  · rw [hflag]
    by_cases hm : aid.toStr ∈ topIds
    · rw [if_pos (decide_eq_true hm)]
      constructor
      · intro _
        exact (buildTopIds_ok_iff_mem hids aid.toStr).mp hm
      · intro _
        rfl
    · rw [if_neg (fun hd => hm (of_decide_eq_true hd))]
      constructor
      · intro hcon
        exact absurd hcon (by decide)
      · rintro ⟨t, ht, v, hv, hvs⟩
        exact absurd
          ((buildTopIds_ok_iff_mem hids aid.toStr).mpr ⟨t, ht, v, hv, hvs⟩) hm
  · rw [hflag]
    by_cases hm : aid.toStr ∈ topIds
    · exact Or.inl (by rw [if_pos (decide_eq_true hm)])
    · exact Or.inr (by rw [if_neg (fun hd => hm (of_decide_eq_true hd))])

/-- C4: the description preview is the whole description when its
length is at most 200 characters, and otherwise exactly the first 200
characters followed by the ellipsis marker. -/
theorem preview_correct {tops : List RawTop} {topIds : List String}
    {app : RawApp} {row : Row} {desc : String}
    (hrow : annotate tops topIds app = .ok row)
    (hdesc : app.description = some desc) :
    (desc.length ≤ 200 → row.description_preview = desc) ∧
    (200 < desc.length →
      row.description_preview = String.mk (desc.toList.take 200) ++ "..." ∧
      (String.mk (desc.toList.take 200)).length = 200) := by
  obtain ⟨aid, nm, cat, rat, ol, desc2, found, -, -, -, -, -, hd2, -, hroweq⟩ :=
    annotate_ok_inv hrow
  rw [hdesc] at hd2
  injection hd2 with hdd
  subst hdd
  have hp : row.description_preview = preview desc := by rw [hroweq]
  constructor
  · intro hle
    rw [hp, preview, if_neg (by omega)]
  · intro hgt
    refine ⟨?_, ?_⟩
    · rw [hp, preview, if_pos (by omega)]
    · show (desc.toList.take 200).length = 200
      have hlen : desc.toList.length = desc.length := rfl
      rw [List.length_take]
      omega

/-- C10: when a record's identifier string belongs to the membership
set, the linear scan over `top_10_results` necessarily finds an entry
with an equal identifier string — the not-found outcome is unreachable
under the membership precondition. -/
theorem member_scan_finds {tops : List RawTop} {topIds : List String}
    {s : String} (hids : buildTopIds tops = .ok topIds)
    (hs : s ∈ topIds) :
    ∃ t, findTop tops s = .ok (some t) ∧
      ∃ v, t.id = some v ∧ v.toStr = s := by
  obtain ⟨t, hft, hmt⟩ := findTop_ok_some_of_mem hids hs
  refine ⟨t, hft, ?_⟩
  unfold idMatch at hmt
  cases hv : t.id with
  | none => rw [hv] at hmt; cases hmt
  | some v =>
    rw [hv] at hmt
    exact ⟨v, rfl, of_decide_eq_true hmt⟩

/-- C7: when loading fails (missing input file, malformed JSON, or a
missing top-level key) the run terminates with an error and produces no
effects at all — in particular the output file is never written. -/
theorem load_failure_no_output {ld : LoadResult} (h : loadFails ld = true) :
    (run ld).1 = [] ∧ (run ld).2.isSome = true := by
  cases ld with
  | notFound => exact ⟨rfl, rfl⟩
  | badJson => exact ⟨rfl, rfl⟩
  | parsed doc =>
    rw [loadFails] at h
    cases hap : doc.all_plant_apps with
    | none => simp [run, hap]
    | some apps =>
      cases htp : doc.top_10_results with
      | none => simp [run, hap, htp]
      | some tops =>
        rw [hap, htp] at h
        simp at h

/-- C3: a "YES" row copies its three match fields from the first
`top_10_results` entry (in iteration order) whose identifier string
equals the row's; `matched_keywords` is the ", "-join of that entry's
keyword list; a "NO" row leaves all three fields empty. -/
theorem match_fields_correct {tops : List RawTop} {topIds : List String}
    {app : RawApp} {aid : PyVal} {row : Row}
    (hids : buildTopIds tops = .ok topIds)
    (haid : app.id = some aid)
    (hrow : annotate tops topIds app = .ok row) :
    (row.in_top_10 = "YES" →
      ∃ t, tops.find? (idMatch aid.toStr) = some t ∧
        row.matched_keywords =
          String.intercalate ", " (t.matched_keywords.getD []) ∧
        (∀ sc, t.relevance_score = some sc → row.relevance_score = sc) ∧
        (∀ rsn, t.match_reason = some rsn → row.match_reason = rsn)) ∧
    (row.in_top_10 = "NO" →
      row.matched_keywords = "" ∧ row.relevance_score = .str "" ∧
      row.match_reason = "") := by
  obtain ⟨aid2, nm, cat, rat, ol, desc, found, hid2, -, -, -, -, -, hf, hroweq⟩ :=
    annotate_ok_inv hrow
  rw [haid] at hid2
  injection hid2 with haid2
  subst haid2
  have hflag : row.in_top_10 =
      (if decide (aid.toStr ∈ topIds) then "YES" else "NO") := by
    rw [hroweq]
  have hmk : row.matched_keywords = mkKeywords found := by rw [hroweq]
  have hsc : row.relevance_score = mkScore found := by rw [hroweq]
  have hmr : row.match_reason = mkReason found := by rw [hroweq]
  by_cases hm : aid.toStr ∈ topIds
  · rw [if_pos (decide_eq_true hm)] at hf
    obtain ⟨t, hft, hmt⟩ := findTop_ok_some_of_mem hids hm
    rw [hft] at hf
    injection hf with hfound
    subst hfound
    constructor
    · intro _
      have hfind := findTop_eq_findFirst aid.toStr (buildTopIds_ok_idsSome hids)
      rw [hft] at hfind
      injection hfind with hfind2
      refine ⟨t, hfind2.symm, ?_, ?_, ?_⟩
      · rw [hmk]; rfl
      · intro sc hsc2
        rw [hsc]
        show (mkScore (some t)) = sc
        rw [mkScore, hsc2]
        rfl
      · intro rsn hrsn
        rw [hmr]
        show (mkReason (some t)) = rsn
        rw [mkReason, hrsn]
        rfl
    · intro hno
      rw [hflag, if_pos (decide_eq_true hm)] at hno
      exact absurd hno (by decide)
  · rw [if_neg (fun hd => hm (of_decide_eq_true hd))] at hf
    injection hf with hfound
    subst hfound
    constructor
    · intro hyes
      rw [hflag, if_neg (fun hd => hm (of_decide_eq_true hd))] at hyes
      exact absurd hyes (by decide)
    · intro _
      exact ⟨by rw [hmk]; rfl, by rw [hsc]; rfl, by rw [hmr]; rfl⟩

/-- C5: on a successful run the written output file holds exactly one
data row per record of `all_plant_apps`. -/
theorem output_rows_count {ld : LoadResult} {fx : List Effect} {doc : Doc}
    {apps : List RawApp} {rows : List Row}
    (h : run ld = (fx, none)) (hld : ld = .parsed doc)
    (hap : doc.all_plant_apps = some apps)
    (hw : Effect.writeFile rows ∈ fx) :
    rows.length = apps.length := by
  obtain ⟨doc2, apps2, tops, topIds, rows2, sorted, hld2, hap2, htp, hids,
    hrows, hsort, hfx⟩ := run_ok_inv h
  subst hld
  injection hld2 with hdoc
  subst hdoc
  rw [hap] at hap2
  injection hap2 with happs
  subst happs
  subst hfx
  simp only [List.mem_cons, List.not_mem_nil, or_false] at hw
  rcases hw with h1 | h1 | h1 | h1 | h1 | h1 <;> cases h1
  rw [sortRows_ok_length hsort, annotateAll_ok_length hrows]

/-- C8: the printed "Apps in top 10" count equals the number of "YES"
rows in the written file, and the printed listing consists of at most
the first 10 "YES" rows in their post-sort order. -/
theorem summary_consistent {ld : LoadResult} {fx : List Effect}
    {rows : List Row} {n : Nat} {l : List Row}
    (h : run ld = (fx, none))
    (hw : Effect.writeFile rows ∈ fx) :
    (Effect.printTopCount n ∈ fx →
      n = (rows.filter (fun r => decide (r.in_top_10 = "YES"))).length) ∧
    (Effect.printListing l ∈ fx →
      l = (rows.filter (fun r => decide (r.in_top_10 = "YES"))).take 10 ∧
      l.length ≤ 10) := by
  obtain ⟨doc, apps, tops, topIds, rows2, sorted, -, -, -, -, -, hsort, hfx⟩ :=
    run_ok_inv h
  subst hfx
  simp only [List.mem_cons, List.not_mem_nil, or_false] at hw
  rcases hw with h1 | h1 | h1 | h1 | h1 | h1 <;> cases h1
  constructor
  · intro hn
    simp only [List.mem_cons, List.not_mem_nil, or_false] at hn
    rcases hn with h2 | h2 | h2 | h2 | h2 | h2 <;> cases h2
    exact List.countP_eq_length_filter _ _
  · intro hl
    simp only [List.mem_cons, List.not_mem_nil, or_false] at hl
    rcases hl with h2 | h2 | h2 | h2 | h2 | h2 <;> cases h2
    exact ⟨rfl, List.length_take_le 10 _⟩

/-- C1 (amended): the written rows are partitioned — once a "NO" row
appears, every later row is "NO" — and within rows sharing a membership
flag the effective rating (falsy ratings counting as 0) is
non-increasing.  A falsy-rating row therefore sorts below every
positive-rating row of its group, though negative-rating rows sort
below it. -/
theorem output_partitioned_and_sorted {ld : LoadResult} {fx : List Effect}
    {rows : List Row}
    (h : run ld = (fx, none)) (hw : Effect.writeFile rows ∈ fx) :
    rows.Pairwise (fun a b =>
      (a.in_top_10 = "NO" → b.in_top_10 = "NO") ∧
      (a.in_top_10 = b.in_top_10 → ∀ qa qb,
        effRating a = some qa → effRating b = some qb → qb ≤ qa)) ∧
    (∀ r ∈ rows, r.rating.truthy = false → effRating r = some 0) := by
  obtain ⟨doc, apps, tops, topIds, rows2, sorted, -, -, -, -, -, hsort, hfx⟩ :=
    run_ok_inv h
  subst hfx
  simp only [List.mem_cons, List.not_mem_nil, or_false] at hw
  rcases hw with h1 | h1 | h1 | h1 | h1 | h1 <;> cases h1
  obtain ⟨keyed, hk, hsorted⟩ := sortRows_ok_inv hsort
  constructor
  · rw [hsorted, List.pairwise_map]
    have hpair : (keyed.insertionSort keyedLe).Pairwise keyedLe :=
      List.sorted_insertionSort keyedLe keyed
    refine hpair.imp_of_mem ?_
    intro p q hp hq hle
    have hkp := buildKeyed_ok_key hk p ((List.mem_insertionSort keyedLe).mp hp)
    have hkq := buildKeyed_ok_key hk q ((List.mem_insertionSort keyedLe).mp hq)
    obtain ⟨qp, heffp, hkeyp⟩ := rowKey_ok_iff.mp hkp
    obtain ⟨qq, heffq, hkeyq⟩ := rowKey_ok_iff.mp hkq
    rw [keyedLe, keyLe, hkeyp, hkeyq] at hle
    constructor
    · intro hNOp
      rcases hle with ⟨h1, h2⟩ | ⟨h1, h2⟩
      · rw [decide_eq_true hNOp] at h1
        cases h1
      · rw [decide_eq_true hNOp] at h1
        exact of_decide_eq_true h1.symm
    · intro hfeq qa qb hqa hqb
      rw [heffp] at hqa
      injection hqa with hqa2
      subst hqa2
      rw [heffq] at hqb
      injection hqb with hqb2
      subst hqb2
      rcases hle with ⟨h1, h2⟩ | ⟨h1, h2⟩
      · rw [hfeq] at h1
        rw [h1] at h2
        cases h2
      · exact neg_le_neg_iff.mp h2
  · intro r hr hfalsy
    rw [effRating, if_neg (by simp [hfalsy])]

/-- C9: the sort is stable — two annotated rows with the same
membership flag and the same effective rating keep, in the sorted
output, the relative order they had in the annotated list (which lists
one row per `all_plant_apps` record, in source order). -/
theorem stable_tie_order {tops : List RawTop} {topIds : List String}
    {apps : List RawApp} {rows sorted : List Row} {r1 r2 : Row}
    (hrows : annotateAll tops topIds apps = .ok rows)
    (hsort : sortRows rows = .ok sorted)
    (hsub : List.Sublist [r1, r2] rows)
    (hflag : r1.in_top_10 = r2.in_top_10)
    (hrat : effRating r1 = effRating r2) :
    List.Sublist [r1, r2] sorted := by
  obtain ⟨keyed, hk, hsorted⟩ := sortRows_ok_inv hsort
  rw [← buildKeyed_ok_map_snd hk] at hsub
  obtain ⟨pairs, hpairs, hmap⟩ := List.sublist_map_iff.mp hsub
  cases pairs with
  | nil => cases hmap
  | cons p1 rest =>
  cases rest with
  | nil => cases hmap
  | cons p2 rest2 =>
  cases rest2 with
  | cons p3 rest3 => cases hmap
  | nil =>
  injection hmap with hm1 hmap2
  injection hmap2 with hm2
  have hkp1 := buildKeyed_ok_key hk p1 (hpairs.subset (List.mem_cons_self _ _))
  have hkp2 := buildKeyed_ok_key hk p2
    (hpairs.subset (List.mem_cons_of_mem _ (List.mem_cons_self _ _)))
  obtain ⟨q1, heff1, hkey1⟩ := rowKey_ok_iff.mp hkp1
  obtain ⟨q2, heff2, hkey2⟩ := rowKey_ok_iff.mp hkp2
  have hq12 : q1 = q2 := by
    rw [← hm1] at heff1
    rw [← hm2] at heff2
    rw [hrat] at heff1
    rw [heff2] at heff1
    injection heff1 with h
    exact h.symm
  have hle : keyedLe p1 p2 := by
    rw [keyedLe, keyLe, hkey1, hkey2, ← hm1, ← hm2, hflag, hq12]
    exact Or.inr ⟨rfl, le_refl _⟩
  have hstable := List.pair_sublist_insertionSort hle hpairs
  have hfinal := hstable.map Prod.snd
  rw [hsorted]
  simpa [hm1, hm2] using hfinal

theorem annotate_not_ok_of_missing {tops : List RawTop}
    {topIds : List String} {app : RawApp}
    (hmiss : app.id = none ∨ app.name = none ∨ app.category = none ∨
      app.rating = none ∨ app.one_liner = none ∨ app.description = none) :
    ∀ row, annotate tops topIds app ≠ .ok row := by
  intro row h
  obtain ⟨aid, nm, cat, rat, ol, desc, found, h1, h2, h3, h4, h5, h6, -, -⟩ :=
    annotate_ok_inv h
  rcases hmiss with hm | hm | hm | hm | hm | hm <;> simp_all

/-- C6 (amended): a record of `all_plant_apps` missing any of its six
required fields halts the run, as does a `top_10_results` entry missing
its `id`; but a `top_10_results` entry missing `matched_keywords`,
`relevance_score` or `match_reason` does not halt the run — the empty
defaults are silently substituted for those three fields. -/
theorem missing_field_behavior :
    (∀ doc apps app, doc.all_plant_apps = some apps → app ∈ apps →
      (app.id = none ∨ app.name = none ∨ app.category = none ∨
       app.rating = none ∨ app.one_liner = none ∨ app.description = none) →
      (run (.parsed doc)).2.isSome = true) ∧
    (∀ doc tops t, doc.top_10_results = some tops → t ∈ tops →
      t.id = none → (run (.parsed doc)).2.isSome = true) ∧
    (∀ tops topIds app aid row t,
      app.id = some aid →
      decide (aid.toStr ∈ topIds) = true →
      annotate tops topIds app = .ok row →
      findTop tops aid.toStr = .ok (some t) →
      t.matched_keywords = none → t.relevance_score = none →
      t.match_reason = none →
      row.matched_keywords = "" ∧ row.relevance_score = .str "" ∧
      row.match_reason = "") := by
  refine ⟨?_, ?_, ?_⟩
  · intro doc apps app hap hmem hmiss
    cases hrun : (run (.parsed doc)).2 with
    | some e => rfl
    | none =>
      exfalso
      have hpair : run (.parsed doc) = ((run (.parsed doc)).1, none) := by
        rw [← hrun]
      obtain ⟨doc2, apps2, tops, topIds, rows, sorted, hld, hap2, -, -,
        hrows, -, -⟩ := run_ok_inv hpair
      injection hld with hdoc
      subst hdoc
      rw [hap] at hap2
      injection hap2 with happs
      subst happs
      obtain ⟨r, hr, -⟩ := annotateAll_ok_mem hrows hmem
      exact annotate_not_ok_of_missing hmiss r hr
  · intro doc tops t htp hmem hid
    cases hrun : (run (.parsed doc)).2 with
    | some e => rfl
    | none =>
      exfalso
      have hpair : run (.parsed doc) = ((run (.parsed doc)).1, none) := by
        rw [← hrun]
      obtain ⟨doc2, apps2, tops2, topIds, rows, sorted, hld, -, htp2, hids,
        -, -, -⟩ := run_ok_inv hpair
      injection hld with hdoc
      subst hdoc
      rw [htp] at htp2
      injection htp2 with htops
      subst htops
      exact buildTopIds_not_ok_of_missing hmem hid topIds hids
  · intro tops topIds app aid row t haid hm hrow hfind hk1 hk2 hk3
    obtain ⟨aid2, nm, cat, rat, ol, desc, found, hid2, -, -, -, -, -, hf,
      hroweq⟩ := annotate_ok_inv hrow
    rw [haid] at hid2
    injection hid2 with haid2
    subst haid2
    rw [if_pos hm] at hf
    rw [hfind] at hf
    injection hf with hfound
    subst hfound
    refine ⟨?_, ?_, ?_⟩
    · rw [hroweq]
      show mkKeywords (some t) = ""
      rw [mkKeywords, hk1]
      rfl
    · rw [hroweq]
      show mkScore (some t) = .str ""
      rw [mkScore, hk2]
      rfl
    · rw [hroweq]
      show mkReason (some t) = ""
      rw [mkReason, hk3]
      rfl

/-- C1 counterexample: on a valid input whose ratings are `-1` (truthy)
and `0` (falsy), both rows land in the "NO" group and the falsy-rating
row sorts FIRST in its group, not last — its effective key 0 exceeds
the negative rating's effective key.  This refutes the claim's "a
falsy-rating row sorts last within its group". -/
theorem claim_falsy_last_counterexample :
    (run (.parsed negDoc)).2 = none ∧
    writtenRows (run (.parsed negDoc)).1 = some [zeroRow, negRow] ∧
    zeroRow.rating.truthy = false ∧ negRow.rating.truthy = true ∧
    zeroRow.in_top_10 = "NO" ∧ negRow.in_top_10 = "NO" := by decide

/-- C6 counterexample: an input whose single top-10 entry is missing
`matched_keywords`, `relevance_score` and `match_reason` does NOT halt
the run — it completes and writes a row carrying the silently
substituted empty defaults.  This refutes the claim that any missing
expected field is fatal. -/
theorem missing_get_fields_counterexample :
    (run (.parsed docMissTop)).2 = none ∧
    missTop.matched_keywords = none ∧ missTop.relevance_score = none ∧
    missTop.match_reason = none ∧
    writtenRows (run (.parsed docMissTop)).1 = some [row6] := by decide

/-- Witness for `membership_flag_iff` at the concrete input `wDoc`. -/
theorem membership_flag_iff_witness :
    (wRow2.in_top_10 = "YES" ↔
      ∃ t ∈ [wTop], ∃ v, t.id = some v ∧ v.toStr = (PyVal.num 2).toStr) ∧
    (wRow2.in_top_10 = "YES" ∨ wRow2.in_top_10 = "NO") :=
  @membership_flag_iff [wTop] ["2"] wApp2 (.num 2) wRow2 (by decide)
    (by decide) (by decide)

/-- Witness for `preview_correct` at the concrete input `wApp2`. -/
theorem preview_correct_witness :
    (("second desc").length ≤ 200 →
      wRow2.description_preview = "second desc") ∧
    (200 < ("second desc").length →
      wRow2.description_preview =
        String.mk (("second desc").toList.take 200) ++ "..." ∧
      (String.mk (("second desc").toList.take 200)).length = 200) :=
  @preview_correct [wTop] ["2"] wApp2 wRow2 "second desc" (by decide)
    (by decide)

/-- Witness for `member_scan_finds` at the concrete input `[wTop]`. -/
theorem member_scan_finds_witness :
    ∃ t, findTop [wTop] "2" = .ok (some t) ∧
      ∃ v, t.id = some v ∧ v.toStr = "2" :=
  @member_scan_finds [wTop] ["2"] "2" (by decide) (by decide)

/-- Witness for `load_failure_no_output` on a missing input file. -/
theorem load_failure_no_output_witness :
    (run .notFound).1 = [] ∧ (run .notFound).2.isSome = true :=
  @load_failure_no_output .notFound (by decide)

/-- Witness for `match_fields_correct` at the concrete input `wApp2`. -/
theorem match_fields_correct_witness :
    (wRow2.in_top_10 = "YES" →
      ∃ t, [wTop].find? (idMatch (PyVal.num 2).toStr) = some t ∧
        wRow2.matched_keywords =
          String.intercalate ", " (t.matched_keywords.getD []) ∧
        (∀ sc, t.relevance_score = some sc → wRow2.relevance_score = sc) ∧
        (∀ rsn, t.match_reason = some rsn → wRow2.match_reason = rsn)) ∧
    (wRow2.in_top_10 = "NO" →
      wRow2.matched_keywords = "" ∧ wRow2.relevance_score = .str "" ∧
      wRow2.match_reason = "") :=
  @match_fields_correct [wTop] ["2"] wApp2 (.num 2) wRow2 (by decide)
    (by decide) (by decide)

/-- Witness for `output_rows_count` at the concrete input `wDoc`. -/
theorem output_rows_count_witness :
    ([wRow2, wRow1] : List Row).length =
      ([wApp1, wApp2] : List RawApp).length :=
  @output_rows_count (.parsed wDoc) wFx wDoc [wApp1, wApp2] [wRow2, wRow1]
    (by decide) rfl (by decide) (by decide)

/-- Witness for `summary_consistent` at the concrete input `wDoc`. -/
theorem summary_consistent_witness :
    (Effect.printTopCount 1 ∈ wFx →
      1 = ([wRow2, wRow1].filter
        (fun r => decide (r.in_top_10 = "YES"))).length) ∧
    (Effect.printListing [wRow2] ∈ wFx →
      [wRow2] = ([wRow2, wRow1].filter
        (fun r => decide (r.in_top_10 = "YES"))).take 10 ∧
      ([wRow2] : List Row).length ≤ 10) :=
  @summary_consistent (.parsed wDoc) wFx [wRow2, wRow1] 1 [wRow2]
    (by decide) (by decide)

/-- Witness for `output_partitioned_and_sorted` at the concrete input
`wDoc`. -/
theorem output_partitioned_and_sorted_witness :
    ([wRow2, wRow1] : List Row).Pairwise (fun a b =>
      (a.in_top_10 = "NO" → b.in_top_10 = "NO") ∧
      (a.in_top_10 = b.in_top_10 → ∀ qa qb,
        effRating a = some qa → effRating b = some qb → qb ≤ qa)) ∧
    (∀ r ∈ ([wRow2, wRow1] : List Row), r.rating.truthy = false →
      effRating r = some 0) :=
  @output_partitioned_and_sorted (.parsed wDoc) wFx [wRow2, wRow1]
    (by decide) (by decide)

/-- Witness for `stable_tie_order`: two equal-rating "NO" rows keep
their input order through the sort. -/
theorem stable_tie_order_witness :
    List.Sublist [eqRow1, eqRow2] [eqRow1, eqRow2] :=
  @stable_tie_order [] [] [eqApp1, eqApp2] [eqRow1, eqRow2]
    [eqRow1, eqRow2] eqRow1 eqRow2 (by decide) (by decide)
    (List.Sublist.refl _) (by decide) (by decide)

/-- Witness for `missing_field_behavior`: a record missing `id` halts
the run, a top-10 entry missing `id` halts the run, and a top-10 entry
missing only the three `get`-accessed fields yields the defaults. -/
theorem missing_field_behavior_witness :
    (run (.parsed docMissApp)).2.isSome = true ∧
    (run (.parsed docMissIdTop)).2.isSome = true ∧
    (row6.matched_keywords = "" ∧ row6.relevance_score = .str "" ∧
      row6.match_reason = "") :=
  ⟨missing_field_behavior.1 docMissApp [missApp] missApp (by decide)
      (by decide) (by decide),
   missing_field_behavior.2.1 docMissIdTop [missIdTop] missIdTop (by decide)
      (by decide) (by decide),
   missing_field_behavior.2.2 [missTop] [(PyVal.num 1).toStr] app6 (.num 1)
      row6 missTop (by decide) (by decide) (by decide) (by decide)
      (by decide) (by decide) (by decide)⟩
